import Mathlib

/-
A verification development for the key-resolution and token-verification core
of the APIJWT repository:

* `src/app/security/jwks_cache.py`   — `JWKSCache` (key cache with TTL,
  forced refresh on miss, background refresh);
* `src/app/security/jwt_validator.py` — `JWTValidator` (RS256 token
  verification pipeline and claim checks);
* `src/app/security/authz.py`        — scope extraction and scope checks.

The Python code is embedded shallowly: JSON values become an inductive type,
dictionaries become association lists, the mutable cache becomes explicit
state passing, network I/O and the opaque cryptographic/encoding primitives
become oracle functions supplied in an environment record, and exceptions
become `Except`/`Option` results.  The claim checks performed inside the
PyJWT `jwt.decode` call (invoked at jwt_validator.py:57-71 with leeway 0 and
every verify option enabled) are modelled from that library's documented
semantics, since the call's behaviour is part of the pipeline under
verification.
-/

/-- A model of JSON values as decoded by Python's `json.loads`.  Objects are
association lists in key order; keys are unique (`json.loads` keeps one entry
per key). -/
inductive JVal where
  | jnull
  | jbool (b : Bool)
  | jnum (n : Int)
  | jstr (s : String)
  | jarr (xs : List JVal)
  | jobj (fields : List (String × JVal))
deriving Repr

/-- `d.get k` models Python `d.get(k)` on a decoded JSON object: the value at
key `k`, or `None` when the key is absent.  A non-object has no keys. -/
def JVal.get : JVal → String → Option JVal
  | .jobj fs, k => fs.lookup k
  | _, _ => none

/-- Python `k in d` for a decoded JSON object `d` (dict key containment). -/
def JVal.hasField (d : JVal) (k : String) : Bool :=
  (d.get k).isSome

/-- Python truthiness (`if not x`) of an optional decoded JSON value:
`None`, `False`, `0`, `""`, `[]` and `{}` are falsy. -/
def pyFalsy : Option JVal → Bool
  | none => true
  | some .jnull => true
  | some (.jbool b) => !b
  | some (.jnum n) => n == 0
  | some (.jstr s) => s == ""
  | some (.jarr xs) => xs.isEmpty
  | some (.jobj fs) => fs.isEmpty

/-- Python `v == s` for a decoded JSON value `v` and a `str` `s`: true exactly
when `v` is the same string (a non-string compares unequal to a `str`). -/
def pyEqStr (v : JVal) (s : String) : Bool :=
  match v with
  | .jstr t => t == s
  | _ => false

/-- Python `v in xs` for a decoded JSON value `v` and a list of `str`. -/
def pyInStrList (v : JVal) (xs : List String) : Bool :=
  match v with
  | .jstr t => xs.contains t
  | _ => false

mutual

/-- Python `repr` of a decoded JSON value, as produced for elements of a list
interpolated into an f-string. -/
def jRepr : JVal → String
  | .jnull => "None"
  | .jbool b => cond b "True" "False"
  | .jnum n => toString n
  | .jstr s => "'" ++ s ++ "'"
  | .jarr xs => "[" ++ jReprList xs ++ "]"
  | .jobj fs => "\x7b" ++ jReprFields fs ++ "\x7d"

/-- Comma-separated `repr`s of the elements of a decoded JSON array. -/
def jReprList : List JVal → String
  | [] => ""
  | [x] => jRepr x
  | x :: y :: xs => jRepr x ++ ", " ++ jReprList (y :: xs)

/-- Comma-separated `repr`s of the entries of a decoded JSON object. -/
def jReprFields : List (String × JVal) → String
  | [] => ""
  | [(k, v)] => "'" ++ k ++ "': " ++ jRepr v
  | (k, v) :: f :: fs => "'" ++ k ++ "': " ++ jRepr v ++ ", " ++ jReprFields (f :: fs)

end

/-- Python `str` of a decoded JSON value, as interpolated by an f-string:
a string is inserted bare, everything else via `repr`. -/
def jShow : JVal → String
  | .jstr s => s
  | .jnull => "None"
  | .jbool b => cond b "True" "False"
  | .jnum n => toString n
  | .jarr xs => "[" ++ jReprList xs ++ "]"
  | .jobj fs => "\x7b" ++ jReprFields fs ++ "\x7d"

/-- Helper for `pyStrSplitWs`: walks the characters accumulating the current
fragment (reversed); whitespace ends a fragment and empty fragments are
dropped — the semantics of Python `str.split()` with no separator. -/
def splitWsChars : List Char → List Char → List (List Char)
  | [], acc => if acc.isEmpty then [] else [acc.reverse]
  | c :: cs, acc =>
    if c.isWhitespace then
      if acc.isEmpty then splitWsChars cs []
      else acc.reverse :: splitWsChars cs []
    else splitWsChars cs (c :: acc)

/-- Python `s.split()` with no separator: split on runs of whitespace,
dropping empty fragments. -/
def pyStrSplitWs (s : String) : List String :=
  (splitWsChars s.data []).map String.mk

/-- Python `s.strip()`: drop leading and trailing whitespace. -/
def pyStrip (s : String) : String :=
  String.mk (((s.data.dropWhile Char.isWhitespace).reverse.dropWhile
    Char.isWhitespace).reverse)

/-- A space-delimited wire form of a scope list (the string representation
whose normalization the spec compares against the list representation). -/
def spaceJoined : List String → String
  | [] => ""
  | [w] => w
  | w :: x :: ws => w ++ " " ++ spaceJoined (x :: ws)

/-- `JWTValidator.extract_scope` (src/app/security/jwt_validator.py:185-194):
`scope = claims.get('scope', [])`; a string is split on whitespace with each
fragment stripped and empty fragments dropped
(`[s.strip() for s in scope.split() if s.strip()]`); a list is returned
as-is; anything else yields `[]` (the `[]` default also lands in the list
branch and is returned as-is). -/
def extract_scope (claims : JVal) : List JVal :=
  match claims.get "scope" with
  | some (.jstr s) =>
    ((((pyStrSplitWs s).map pyStrip).filter (fun t => t ≠ "")).map JVal.jstr)
  | some (.jarr xs) => xs
  | _ => []

/-- `_extract_scopes` (src/app/security/authz.py:87-96), textually identical
to `JWTValidator.extract_scope`. -/
def extract_scopes (claims : JVal) : List JVal :=
  match claims.get "scope" with
  | some (.jstr s) =>
    ((((pyStrSplitWs s).map pyStrip).filter (fun t => t ≠ "")).map JVal.jstr)
  | some (.jarr xs) => xs
  | _ => []

/-- The `Union[str, List[str]]` required-scopes argument of
`check_scope_access` and `require_scopes`. -/
inductive ReqScopes where
  | single (s : String)
  | many (scopes : List String)

/-- The normalization `if isinstance(required_scopes, str):
required_scopes = [required_scopes]` (authz.py:110-111). -/
def ReqScopes.toList : ReqScopes → List String
  | .single s => [s]
  | .many l => l

/-- Python `s in user_scopes` for a `str` `s` and a list of decoded JSON
values: `s` equals some element (only a string element can match). -/
def pyStrMem (s : String) (user : List JVal) : Bool :=
  user.any (fun v => pyEqStr v s)

/-- `check_scope_access` (src/app/security/authz.py:99-114): wrap a `str`
argument into a one-element list, then
`any(scope in user_scopes for scope in required_scopes)`. -/
def check_scope_access (claims : JVal) (required : ReqScopes) : Bool :=
  (required.toList).any (fun s => pyStrMem s (extract_scopes claims))

/-- `JWTValidator.has_scope` (jwt_validator.py:196-199):
`required_scope in self.extract_scope(claims)`. -/
def has_scope (claims : JVal) (required : String) : Bool :=
  pyStrMem required (extract_scope claims)

/-- `JWTValidator.has_any_scope` (jwt_validator.py:201-204):
`any(scope in scopes for scope in required_scopes)`. -/
def has_any_scope (claims : JVal) (required : List String) : Bool :=
  required.any (fun s => pyStrMem s (extract_scope claims))

/-- Outcome of the `requests.get(url, timeout=30)` + `response.json()` step of
`JWKSCache._fetch_jwks` for one URL: a network/HTTP error
(`requests.RequestException`, including `raise_for_status`), a body that
fails JSON decoding, or a decoded JSON body. -/
inductive FetchOutcome where
  | netErr
  | jsonErr
  | body (j : JVal)

/-- External inputs of a cache operation: what the network returns for each
URL, the current `time.time()`, and the configured TTL
(`settings.jwks_cache_ttl_sec`). -/
structure FetchEnv where
  net : String → FetchOutcome
  now : Int
  ttl : Int

/-- The mutable state of `JWKSCache`: `_cache` (cache key → decoded JWKS
document) and `_cache_timestamps` (cache key → fetch time), both Python
dicts, modelled as association lists. -/
structure CacheState where
  cache : List (String × JVal)
  timestamps : List (String × Int)

/-- Association-list update modelling Python dict assignment `d[k] = v`. -/
def updateAssoc {α : Type} : List (String × α) → String → α → List (String × α)
  | [], k, v => [(k, v)]
  | (k', v') :: rest, k, v =>
    if k' = k then (k, v) :: rest else (k', v') :: updateAssoc rest k v

/-- `JWKSCache._get_cache_key` (jwks_cache.py:140-143): `urlparse(url)` then
`f"{netloc}{path}"`.  For the `scheme://netloc/path` URLs admitted by the
configuration validator (HTTPS only) this strips the scheme prefix and cuts
off any query or fragment. -/
def get_cache_key (url : String) : String :=
  let cs := url.data
  let rest :=
    if cs.take 8 = "https://".data then cs.drop 8
    else if cs.take 7 = "http://".data then cs.drop 7
    else cs
  String.mk (rest.takeWhile (fun c => c != '?' && c != '#'))

/-- Character-level list-prefix test (Python string matching helper). -/
def isPrefChars : List Char → List Char → Bool
  | [], _ => true
  | _ :: _, [] => false
  | a :: as, b :: bs => a == b && isPrefChars as bs

/-- Character-level substring containment: Python `needle in haystack` for
two `str` values. -/
def containsSub (needle : List Char) : List Char → Bool
  | [] => needle.isEmpty
  | c :: rest => isPrefChars needle (c :: rest) || containsSub needle rest

/-- How the Python containment test `'keys' in jwks` (jwks_cache.py:121)
behaves on a decoded JSON body. -/
inductive ContainsKeysOutcome where
  | yes
  | no
  | raises
deriving DecidableEq, Repr

/-- Python `'keys' in jwks` on a decoded JSON body: key containment on a
dict, substring containment on a `str` (so `'keys' in "monkeys"` is true),
element membership on a list; a number, boolean or `None` raises
`TypeError` at the test itself, before anything is cached. -/
def pyContainsKeys (j : JVal) : ContainsKeysOutcome :=
  match j with
  | .jobj fs => if (fs.lookup "keys").isSome then .yes else .no
  | .jstr s => if containsSub "keys".data s.data then .yes else .no
  | .jarr xs => if xs.any (fun v => pyEqStr v "keys") then .yes else .no
  | _ => .raises

/-- Whether the logging computations after the cache write —
`len(jwks['keys'])` and `[key.get('kid', 'unknown') for key in
jwks['keys']]` (jwks_cache.py:129-130) — complete without raising: the body
must be a dict whose `keys` value is a list of dicts (possibly empty).  A
`str`/list body (whose subscript raises `TypeError`), a non-list `keys`
value, or a list with a non-dict element all raise *after* the write. -/
def jwksLogOk (j : JVal) : Bool :=
  match j with
  | .jobj fs =>
    match fs.lookup "keys" with
    | some (.jarr xs) => xs.all (fun k => match k with | .jobj _ => true | _ => false)
    | _ => false
  | _ => false

/-- The decoded body makes `_fetch_jwks` run to a normal return: the
containment test succeeds and the post-write logging lines do not raise. -/
def fetchBodyOk (j : JVal) : Bool :=
  (match pyContainsKeys j with | .yes => true | _ => false) && jwksLogOk j

/-- `JWKSCache._fetch_jwks` (jwks_cache.py:103-138) as a state transformer.
The boolean is `true` when the call returns normally and `false` when it
raises (every exception is re-raised to the caller, lines 133-138).  The
unforced TTL short-circuit (lines 109-111) returns normally without
touching the network.  A network error, a JSON decode error, a body where
the `'keys' in jwks` test raises (line 121), or a body where it answers no
(line 122 `ValueError`) all fail with the state untouched.  A body passing
the containment test is stored — together with the fetch time — under the
URL's cache key (lines 125-126) *before* the logging computations of lines
129-130; when those raise (non-list-of-dicts `keys`, or a `str`/list body)
the call fails with the write already done.  There is no emptiness check on
the key collection. -/
def fetch_jwks (env : FetchEnv) (st : CacheState) (url : String)
    (forceRefresh : Bool) : CacheState × Bool :=
  let cacheKey := get_cache_key url
  let fresh :=
    match st.timestamps.lookup cacheKey with
    | some t => decide (env.now - t < env.ttl)
    | none => false
  if !forceRefresh && fresh then (st, true)
  else
    match env.net url with
    | .netErr => (st, false)
    | .jsonErr => (st, false)
    | .body jwks =>
      match pyContainsKeys jwks with
      | .no => (st, false)
      | .raises => (st, false)
      | .yes =>
        let newSt : CacheState :=
          { cache := updateAssoc st.cache cacheKey jwks,
            timestamps := updateAssoc st.timestamps cacheKey env.now }
        if jwksLogOk jwks then (newSt, true) else (newSt, false)

/-- The inner scan of `JWKSCache.get_key`: `if 'keys' in jwks: for key in
jwks['keys']: if key.get('kid') == kid: return key` (jwks_cache.py:78-81 and
92-96).  A `keys` field that is not an array yields no match (such a value
can only sit in the cache after a malformed clobbering fetch, whose re-check
is skipped by the `except` at line 97). -/
def findKid (jwks : JVal) (kid : String) : Option JVal :=
  match jwks.get "keys" with
  | some (.jarr keys) => keys.find? (fun k => pyEqStr ((k.get "kid").getD .jnull) kid)
  | _ => none

/-- The first loop of `JWKSCache.get_key` (jwks_cache.py:74-81): scan the
configured URLs in order and return the first cached record whose `kid`
matches. -/
def lookupCached (st : CacheState) (urls : List String) (kid : String) : Option JVal :=
  match urls with
  | [] => none
  | url :: rest =>
    match st.cache.lookup (get_cache_key url) with
    | some jwks =>
      match findKid jwks kid with
      | some k => some k
      | none => lookupCached st rest kid
    | none => lookupCached st rest kid

/-- The miss path of `JWKSCache.get_key` (jwks_cache.py:85-98): for each URL
in order, force-refresh it (a raising fetch is caught at line 97 and skips
the re-check), then re-scan that URL's cached document; the first match is
returned at once.  Besides the lookup result, returns the final cache state
and the list of URLs force-refreshed, in order. -/
def refreshRetry (env : FetchEnv) (st : CacheState) (urls : List String)
    (kid : String) : Option JVal × CacheState × List String :=
  match urls with
  | [] => (none, st, [])
  | url :: rest =>
    let fr := fetch_jwks env st url true
    if fr.2 then
      match fr.1.cache.lookup (get_cache_key url) with
      | some jwks =>
        match findKid jwks kid with
        | some k => (some k, fr.1, [url])
        | none =>
          let r := refreshRetry env fr.1 rest kid
          (r.1, r.2.1, url :: r.2.2)
      | none =>
        let r := refreshRetry env fr.1 rest kid
        (r.1, r.2.1, url :: r.2.2)
    else
      let r := refreshRetry env fr.1 rest kid
      (r.1, r.2.1, url :: r.2.2)

/-- `JWKSCache.get_key` (jwks_cache.py:70-101): look the kid up across the
cached documents in URL order; on a miss, force-refresh each URL and retry
the lookup once per URL, returning `none` after that single retry pass.  The
second and third components are the final cache state and the URLs
force-refreshed. -/
def get_key (env : FetchEnv) (st : CacheState) (urls : List String)
    (kid : String) : Option JVal × CacheState × List String :=
  match lookupCached st urls kid with
  | some k => (some k, st, [])
  | none => refreshRetry env st urls kid

/-- The configuration consumed by the validator (src/app/config.py):
`cop_audience`, `allowed_issuers`, `max_clock_skew_sec`, together with the
current `time.time()` reading of the verification instant. -/
structure ValidatorConfig where
  now : Int
  copAudience : String
  allowedIssuers : List String
  maxClockSkewSec : Int

/-- Oracles for the opaque primitives of the verification pipeline:
`b64JsonDecode` — base64url + JSON decoding of the header segment including
the padding fix-up (jwt_validator.py:110-115; errors carry the exception
text); `jwkToPem` — `JWTValidator._jwk_to_pem` (lines 122-145, whose
failures raise `JWTValidationError` with the given text); `getKey` — the
`jwks_cache.get_key` result for the header's kid value, abstracting the
cache and network state; `tokenPayload` — the structural decode performed
inside `jwt.decode` (segment split, base64, JSON; errors carry the library
exception text); `sigValid` — the RS256 signature check of the token against
a PEM key. -/
structure TokenEnv where
  b64JsonDecode : String → Except String JVal
  jwkToPem : JVal → Except String String
  getKey : JVal → Option JVal
  tokenPayload : String → Except String JVal
  sigValid : String → String → Bool

/-- Helper for `pySplitDots`: split the characters at each `'.'`, keeping
empty fragments — the semantics of Python `token.split('.')`. -/
def splitOnDots : List Char → List Char → List (List Char)
  | [], acc => [acc.reverse]
  | c :: cs, acc =>
    if c = '.' then acc.reverse :: splitOnDots cs []
    else splitOnDots cs (c :: acc)

/-- Python `token.split('.')` (jwt_validator.py:106). -/
def pySplitDots (s : String) : List String :=
  (splitOnDots s.data []).map String.mk

/-- `JWTValidator._parse_jwt_header` (jwt_validator.py:102-120): split on
'.', require exactly three segments, then base64url-decode and JSON-parse
the first segment.  Any failure raises `JWTValidationError` carrying
`"Failed to parse JWT header: " + str(e)`; the error string here is the
inner exception text. -/
def parse_jwt_header (env : TokenEnv) (token : String) : Except String JVal :=
  let parts := pySplitDots token
  if parts.length ≠ 3 then .error "Invalid JWT format"
  else env.b64JsonDecode (parts.headD "")

/-- The PyJWT exceptions distinguished by the handler chain at
jwt_validator.py:72-79.  `invalidToken` covers every other
`jwt.InvalidTokenError` (structural decode errors, signature failure, `nbf`
not yet valid, missing `aud`/`iss`, malformed temporal claims) and carries
the exception text `str(e)` used at line 79. -/
inductive PyJwtError where
  | expiredSignature
  | invalidAudience
  | invalidIssuer
  | invalidToken (msg : String)

/-- The numeric reading PyJWT applies to a temporal claim
(`int(payload[k])`); temporal claims are modelled as JSON numbers, any other
shape fails the corresponding format check. -/
def asPyInt : JVal → Option Int
  | .jnum n => some n
  | _ => none

/-- A temporal claim is present but not numeric. -/
def tempClaimBadFmt (payload : JVal) (k : String) : Bool :=
  match payload.get k with
  | some v => (asPyInt v).isNone
  | none => false

/-- PyJWT `_validate_iat` with leeway 0: reject a future issued-at
(`iat > now`, `ImmatureSignatureError("The token is not yet valid (iat)")`,
present in every PyJWT version whose container-issuer semantics this model
follows). -/
def pyIatFuture (payload : JVal) (now : Int) : Bool :=
  match payload.get "iat" with
  | some (.jnum t) => decide (now < t)
  | _ => false

/-- PyJWT `_validate_nbf` with leeway 0: reject when `nbf > now`. -/
def pyNbfFuture (payload : JVal) (now : Int) : Bool :=
  match payload.get "nbf" with
  | some (.jnum t) => decide (now < t)
  | _ => false

/-- PyJWT `_validate_exp` with leeway 0: reject when `exp <= now`
(`if exp <= (now - leeway): raise ExpiredSignatureError`). -/
def pyExpPast (payload : JVal) (now : Int) : Bool :=
  match payload.get "exp" with
  | some (.jnum t) => decide (t ≤ now)
  | _ => false

/-- PyJWT's reading of the token's audience claim: a string counts as a
one-element list, a list must contain only strings; any other shape is an
invalid claim format (rejected as an invalid audience). -/
def pyAudClaims : JVal → Option (List String)
  | .jstr s => some [s]
  | .jarr xs => xs.mapM (fun v => match v with | .jstr s => some s | _ => none)
  | _ => none

/-- Model of the claim validation performed by `jwt.decode(token, key,
algorithms=["RS256"], audience=settings.cop_audience,
issuer=settings.allowed_issuers, options={..all verify flags..})` at
jwt_validator.py:57-71, following the documented semantics (leeway 0) of
the PyJWT versions that accept a list for the `issuer` argument, as this
call passes: after the structural decode and the signature check, each
present temporal claim must be numeric, a future `iat`, a future `nbf` and
an expiry at or before `now` are rejected one-sidedly (`iat > now`,
`nbf > now`, `exp <= now`), a missing `aud`/`iss` is rejected, the expected
audience must be among the token's audience claim(s) (set membership, not
equality), and the issuer claim must be in the allowed-issuer list.  The
relative order of the audience and issuer checks does not affect any
theorem below; an audience claim of invalid format maps to the same handler
as an audience mismatch. -/
def pyJwtDecode (structOk : Except String JVal) (sigOk : Bool) (now : Int)
    (audience : String) (issuers : List String) : Except PyJwtError JVal :=
  match structOk with
  | .error m => .error (.invalidToken m)
  | .ok payload =>
    if !sigOk then .error (.invalidToken "Signature verification failed")
    else if tempClaimBadFmt payload "iat" then
      .error (.invalidToken "Issued At claim (iat) must be an integer.")
    else if pyIatFuture payload now then
      .error (.invalidToken "The token is not yet valid (iat)")
    else if tempClaimBadFmt payload "nbf" then
      .error (.invalidToken "Not Before claim (nbf) must be an integer.")
    else if pyNbfFuture payload now then
      .error (.invalidToken "The token is not yet valid (nbf)")
    else if tempClaimBadFmt payload "exp" then
      .error (.invalidToken "Expiration Time claim (exp) must be an integer.")
    else if pyExpPast payload now then .error .expiredSignature
    else if !(payload.hasField "aud") then
      .error (.invalidToken "Token is missing the \"aud\" claim")
    else
      match pyAudClaims ((payload.get "aud").getD .jnull) with
      | none => .error .invalidAudience
      | some audClaims =>
        if !(audClaims.contains audience) then .error .invalidAudience
        else if !(payload.hasField "iss") then
          .error (.invalidToken "Token is missing the \"iss\" claim")
        else if !(pyInStrList ((payload.get "iss").getD .jnull) issuers) then
          .error .invalidIssuer
        else .ok payload

/-- `JWTValidator._validate_claims` (jwt_validator.py:147-183): symmetric
clock-skew checks on `iat`, `exp` and `nbf` (each `abs(current_time - claim)
> settings.max_clock_skew_sec`, with a distinct message per claim), then
presence of `sub`, `aud`, `iss`, then exact audience equality
(`claims['aud'] != settings.cop_audience`) and issuer membership
(`claims['iss'] not in settings.allowed_issuers`); the first failing check's
message is returned, `none` when all pass.  Temporal claims are JSON numbers
here: through `validate_jwt` the decode stage has already rejected any other
shape, so the `TypeError` Python would raise on a non-number is unreachable
(a non-numeric temporal claim skips its check in this model). -/
def validate_claims (cfg : ValidatorConfig) (claims : JVal) : Option String :=
  if (match claims.get "iat" with
      | some (.jnum t) => decide (|cfg.now - t| > cfg.maxClockSkewSec)
      | _ => false) then
    some s!"Issued at time drift exceeds {cfg.maxClockSkewSec} seconds"
  else if (match claims.get "exp" with
      | some (.jnum t) => decide (|cfg.now - t| > cfg.maxClockSkewSec)
      | _ => false) then
    some s!"Expiration time drift exceeds {cfg.maxClockSkewSec} seconds"
  else if (match claims.get "nbf" with
      | some (.jnum t) => decide (|cfg.now - t| > cfg.maxClockSkewSec)
      | _ => false) then
    some s!"Not before time drift exceeds {cfg.maxClockSkewSec} seconds"
  else if !(claims.hasField "sub") then some "Missing required claim: sub"
  else if !(claims.hasField "aud") then some "Missing required claim: aud"
  else if !(claims.hasField "iss") then some "Missing required claim: iss"
  else
    let audVal := (claims.get "aud").getD .jnull
    let issVal := (claims.get "iss").getD .jnull
    if !(pyEqStr audVal cfg.copAudience) then
      some s!"Invalid audience: expected '{cfg.copAudience}', got '{jShow audVal}'"
    else if !(pyInStrList issVal cfg.allowedIssuers) then
      some s!"Invalid issuer: '{jShow issVal}' not in allowed issuers"
    else none

/-- The result of `JWTValidator.validate_jwt`: the Python pair
`(claims, None)` on success or `(None, error_message)` on failure — exactly
one side is set on every return path of the source. -/
inductive Outcome where
  | ok (claims : JVal)
  | err (msg : String)

/-- The outcome carries claims. -/
def Outcome.isOk : Outcome → Bool
  | .ok _ => true
  | .err _ => false

/-- The outcome carries an error message. -/
def Outcome.isErr : Outcome → Bool
  | .ok _ => false
  | .err _ => true

/-- `JWTValidator.validate_jwt` (jwt_validator.py:30-100).  Every failure is
returned as an error outcome: the per-kind handlers at lines 72-79 map the
PyJWT exceptions to messages, a claim-check failure is wrapped at line 84,
and the outer `except Exception` at lines 98-100 wraps everything else
(header parse failure, JWK→PEM conversion failure) as
`"Token validation failed: " + str(e)`.  A falsy `get_key` result (`if not
key_data`, line 49) is reported as key-not-found. -/
def validate_jwt (env : TokenEnv) (cfg : ValidatorConfig) (token : String) : Outcome :=
  match parse_jwt_header env token with
  | .error m => .err s!"Token validation failed: Failed to parse JWT header: {m}"
  | .ok header =>
    let kid := header.get "kid"
    if pyFalsy kid then .err "Token validation failed: Missing 'kid' in header"
    else
      let kidv := kid.getD .jnull
      if pyFalsy (env.getKey kidv) then
        .err s!"Token validation failed: Key '{jShow kidv}' not found"
      else
        let keyData := (env.getKey kidv).getD .jnull
        match env.jwkToPem keyData with
        | .error m => .err s!"Token validation failed: {m}"
        | .ok pem =>
          match pyJwtDecode (env.tokenPayload token) (env.sigValid token pem)
              cfg.now cfg.copAudience cfg.allowedIssuers with
          | .error .expiredSignature => .err "Token validation failed: Token has expired"
          | .error .invalidAudience => .err "Token validation failed: Invalid audience"
          | .error .invalidIssuer => .err "Token validation failed: Invalid issuer"
          | .error (.invalidToken m) => .err s!"Token validation failed: {m}"
          | .ok claims =>
            match validate_claims cfg claims with
            | some verr => .err s!"Token validation failed: {verr}"
            | none => .ok claims

/-- Atomic events of a `JWKSCache` code path, for auditing the lock
discipline: acquiring/releasing `self._lock`, reading or writing the shared
`_cache`/`_cache_timestamps` dicts, and a network call (`requests.get`). -/
inductive CacheEv where
  | lockAcquire
  | lockRelease
  | mapRead
  | mapWrite
  | netCall
deriving DecidableEq, Repr

/-- The events of `_fetch_jwks` when it reaches the network and the fetch
succeeds: the `requests.get` call of jwks_cache.py:115 followed by the cache
writes of lines 125-126 (the TTL-fresh short-circuit and a failing fetch
produce no write). -/
def fetchJwksEvents : List CacheEv := [.netCall, .mapWrite]

/-- The events of `JWKSCache.get_key` on a cache miss with two configured
URLs (jwks_cache.py:70-101): the `async with self._lock` block spans the
whole body; inside it the first loop reads the cache once per URL (lines
74-81), then each URL is force-refreshed via `_fetch_jwks` — the network
call of line 115 happening inside the locked block — and the cache re-read
(lines 85-98). -/
def getKeyMissEvents : List CacheEv :=
  [.lockAcquire] ++ [.mapRead, .mapRead] ++
    (fetchJwksEvents ++ [.mapRead]) ++ (fetchJwksEvents ++ [.mapRead]) ++
    [.lockRelease]

/-- The events of `_refresh_all_jwks` (jwks_cache.py:62-68, run by the
background refresh loop, and of the same shape in `initialize`, lines
145-157) with two configured URLs: each URL is force-refreshed via
`_fetch_jwks`; no code on this path acquires `self._lock`. -/
def backgroundRefreshEvents : List CacheEv :=
  fetchJwksEvents ++ fetchJwksEvents

/-- Annotate each event of a path with whether `self._lock` is held when it
occurs (the flag updated by the acquire/release events). -/
def annotateLock : List CacheEv → Bool → List (CacheEv × Bool)
  | [], _ => []
  | .lockAcquire :: es, _ => (.lockAcquire, true) :: annotateLock es true
  | .lockRelease :: es, _ => (.lockRelease, false) :: annotateLock es false
  | e :: es, held => (e, held) :: annotateLock es held

/-- Some network call of the path occurs while the lock is held. -/
def netCallUnderLock (path : List CacheEv) : Bool :=
  (annotateLock path false).any (fun p => p.1 == CacheEv.netCall && p.2)

/-- Some read or write of the shared mapping occurs without the lock. -/
def mapAccessOutsideLock (path : List CacheEv) : Bool :=
  (annotateLock path false).any
    (fun p => (p.1 == CacheEv.mapRead || p.1 == CacheEv.mapWrite) && !p.2)

/-- Looking up the just-updated key returns the just-stored value. -/
theorem lookup_updateAssoc_self {α : Type} (m : List (String × α)) (k : String) (v : α) :
    (updateAssoc m k v).lookup k = some v := by
  induction m with
  | nil => simp [updateAssoc, List.lookup]
  | cons h t ih =>
    obtain ⟨k', v'⟩ := h
    by_cases hk : k' = k
    · simp [updateAssoc, hk, List.lookup]
    · simp only [updateAssoc, if_neg hk, List.lookup]
      have hbe : (k == k') = false := by
        rw [beq_eq_false_iff_ne]
        exact Ne.symm hk
      simp [hbe, ih]

/-- `pyEqStr v s` holds exactly when `v` is the JSON string `s`. -/
theorem pyEqStr_iff (v : JVal) (s : String) : pyEqStr v s = true ↔ v = .jstr s := by
  cases v <;> simp [pyEqStr]

/-- Python membership of a `str` in a list of decoded JSON values is list
membership of the corresponding JSON string. -/
theorem pyStrMem_iff (s : String) (user : List JVal) :
    pyStrMem s user = true ↔ JVal.jstr s ∈ user := by
  simp only [pyStrMem, List.any_eq_true]
  constructor
  · rintro ⟨v, hv, he⟩
    rw [pyEqStr_iff] at he
    exact he ▸ hv
  · intro hmem
    exact ⟨_, hmem, (pyEqStr_iff _ _).mpr rfl⟩

/-- C5: every invocation of `validate_jwt` yields exactly one outcome —
either claims or an error message — with every parsing, decoding,
key-conversion and cryptographic failure returned locally as an error value
rather than escaping the call. -/
theorem validate_jwt_exactly_one_outcome (env : TokenEnv) (cfg : ValidatorConfig)
    (token : String) :
    ((validate_jwt env cfg token).isOk || (validate_jwt env cfg token).isErr) = true ∧
    ((validate_jwt env cfg token).isOk && (validate_jwt env cfg token).isErr) = false := by
  cases h : validate_jwt env cfg token <;> simp [Outcome.isOk, Outcome.isErr]

/-- C7: `check_scope_access` allows exactly when some required scope occurs
among the claims' normalized scopes (OR semantics), denies whenever the
normalized scopes are empty, and the single-scope form agrees with the
any-of form on a one-element set (likewise `has_scope` with
`has_any_scope`). -/
theorem scope_access_intersection (claims : JVal) (req : ReqScopes) (s : String) :
    (check_scope_access claims req = true ↔
      ∃ t ∈ req.toList, JVal.jstr t ∈ extract_scopes claims) ∧
    (extract_scopes claims = [] → check_scope_access claims req = false) ∧
    check_scope_access claims (.single s) = check_scope_access claims (.many [s]) ∧
    has_scope claims s = has_any_scope claims [s] := by
  refine ⟨?_, ?_, rfl, ?_⟩
  · simp only [check_scope_access, List.any_eq_true]
    constructor
    · rintro ⟨t, ht, hm⟩
      exact ⟨t, ht, (pyStrMem_iff _ _).mp hm⟩
    · rintro ⟨t, ht, hm⟩
      exact ⟨t, ht, (pyStrMem_iff _ _).mpr hm⟩
  · intro hempty
    simp [check_scope_access, pyStrMem, hempty]
  · simp [has_scope, has_any_scope]

/-- C7 witness: a token holding scope `A` is allowed against required scopes
`{A, B}`. -/
theorem scope_access_intersection_witness :
    check_scope_access (JVal.jobj [("scope", JVal.jarr [JVal.jstr "A"])])
      (ReqScopes.many ["A", "B"]) = true :=
  (scope_access_intersection (JVal.jobj [("scope", JVal.jarr [JVal.jstr "A"])])
      (ReqScopes.many ["A", "B"]) "A").1.mpr
    ⟨"A", by decide, by simp [extract_scopes, JVal.get, List.lookup]⟩

/-- C9 counterexample: in the `get_key` miss path the network fetch happens
while the mutex is held, and the background-refresh path accesses the shared
mapping without holding the lock — refuting both halves of the claimed lock
discipline (guard held only for map access, never across a fetch, in every
path). -/
theorem lock_discipline_counterexample :
    netCallUnderLock getKeyMissEvents = true ∧
    mapAccessOutsideLock backgroundRefreshEvents = true := by
  decide

/-- C9 amended: within `get_key` every access to the endpoint→KeySet mapping
is performed under the single mutex, but that guard is held across the miss
path's network fetches; the background/initialize refresh path performs its
map writes without acquiring the lock at all (its `_fetch_jwks` calls do not
touch the lock). -/
theorem lock_discipline_actual :
    mapAccessOutsideLock getKeyMissEvents = false ∧
    netCallUnderLock getKeyMissEvents = true ∧
    mapAccessOutsideLock backgroundRefreshEvents = true ∧
    netCallUnderLock backgroundRefreshEvents = false := by
  decide

/-- A cached JWKS document holding one key with kid `k1`. -/
def jwksK1 : JVal :=
  .jobj [("keys", .jarr [.jobj [("kid", .jstr "k1"), ("kty", .jstr "RSA")]])]

/-- A decoded JSON response whose `keys` collection is empty. -/
def jwksEmpty : JVal := .jobj [("keys", .jarr [])]

/-- A cache state with a populated KeySet for the primary endpoint. -/
def stWithK1 : CacheState :=
  ⟨[("idp.example/jwks", jwksK1)], [("idp.example/jwks", 100)]⟩

/-- An environment whose endpoint answers with an empty `keys` collection. -/
def envEmptyKeys : FetchEnv := ⟨fun _ => .body jwksEmpty, 500, 900⟩

/-- C1 counterexample: a fetch whose response parses as JSON but carries an
**empty** key collection is accepted rather than treated as a fetch failure:
the call returns normally, the previously cached KeySet is replaced by the
empty document, and the fetch timestamp advances. -/
theorem fetch_jwks_empty_keys_counterexample :
    (fetch_jwks envEmptyKeys stWithK1 "https://idp.example/jwks" true).2 = true ∧
    (fetch_jwks envEmptyKeys stWithK1 "https://idp.example/jwks" true).1.cache.lookup
      "idp.example/jwks" = some jwksEmpty ∧
    stWithK1.cache.lookup "idp.example/jwks" = some jwksK1 ∧
    jwksEmpty ≠ jwksK1 ∧
    (fetch_jwks envEmptyKeys stWithK1 "https://idp.example/jwks" true).1.timestamps.lookup
      "idp.example/jwks" = some 500 ∧
    stWithK1.timestamps.lookup "idp.example/jwks" = some 100 :=
  ⟨rfl, rfl, rfl, by simp [jwksEmpty, jwksK1], rfl, rfl⟩

/-- Case analysis of a forced `_fetch_jwks` by the decoded body: a body on
which the line-121 containment test answers no or raises fails with the
state untouched; a body passing the test stores itself and the fetch time,
the call then returning normally exactly when the post-write logging lines
do not raise. -/
theorem fetch_jwks_body_cases (env : FetchEnv) (st : CacheState)
    (url : String) (body : JVal) (hnet : env.net url = .body body) :
    (pyContainsKeys body ≠ .yes → fetch_jwks env st url true = (st, false)) ∧
    (pyContainsKeys body = .yes →
      fetch_jwks env st url true =
        ({ cache := updateAssoc st.cache (get_cache_key url) body,
           timestamps := updateAssoc st.timestamps (get_cache_key url) env.now },
         jwksLogOk body)) := by
  constructor
  · intro h
    cases hc : pyContainsKeys body with
    | yes => exact absurd hc h
    | no => simp [fetch_jwks, hnet, hc]
    | raises => simp [fetch_jwks, hnet, hc]
  · intro h
    cases hl : jwksLogOk body <;> simp [fetch_jwks, hnet, h, hl]

/-- C1 amended: a fetch is a clean failure preserving the cached KeySet and
timestamp exactly when the response body fails Python's `'keys' in jwks`
containment test (an object without the field, an array without a `"keys"`
element, a string without the substring, or a number/boolean/null where the
test raises); any body passing the test — including an object whose `keys`
collection is empty — immediately replaces the endpoint's cached document
and fetch timestamp, the fetch then succeeding exactly when the `keys`
value is a list of objects, the empty collection included: emptiness is
never treated as failure. -/
theorem fetch_jwks_keys_presence_decides (env : FetchEnv) (st : CacheState)
    (url : String) (body : JVal) (hnet : env.net url = .body body) :
    (pyContainsKeys body ≠ .yes → fetch_jwks env st url true = (st, false)) ∧
    (pyContainsKeys body = .yes →
      fetch_jwks env st url true =
        ({ cache := updateAssoc st.cache (get_cache_key url) body,
           timestamps := updateAssoc st.timestamps (get_cache_key url) env.now },
         jwksLogOk body)) ∧
    jwksLogOk (JVal.jobj [("keys", JVal.jarr [])]) = true := by
  obtain ⟨h1, h2⟩ := fetch_jwks_body_cases env st url body hnet
  exact ⟨h1, h2, rfl⟩

/-- C1 amended witness: the empty-`keys` response is stored over the
previously cached KeySet and the fetch succeeds. -/
theorem fetch_jwks_keys_presence_decides_witness :
    fetch_jwks envEmptyKeys stWithK1 "https://idp.example/jwks" true =
      ({ cache := updateAssoc stWithK1.cache "idp.example/jwks" jwksEmpty,
         timestamps := updateAssoc stWithK1.timestamps "idp.example/jwks" 500 }, true) :=
  (fetch_jwks_keys_presence_decides envEmptyKeys stWithK1
    "https://idp.example/jwks" jwksEmpty rfl).2.1 rfl

/-- A JSON string body: `'keys' in "monkeys"` is true by substring
containment, yet it is no key set. -/
def jwksMonkeys : JVal := .jstr "monkeys"

/-- An environment whose endpoint answers HTTP 200 with the JSON body
`"monkeys"`. -/
def envMonkeys : FetchEnv := ⟨fun _ => .body jwksMonkeys, 500, 900⟩

/-- C4: evaluation at the failing input.  Against the claim (and the spec's
staleness-over-emptiness intent), a malformed response CAN erase previously
good keys: the body `"monkeys"` passes the line-121 containment test by
substring matching, so lines 125-126 overwrite the cached KeySet and
timestamp, and only then do the logging computations of lines 129-130 raise
— the fetch fails having replaced the good KeySet with the malformed body. -/
theorem fetch_jwks_malformed_clobbers_cache :
    (fetch_jwks envMonkeys stWithK1 "https://idp.example/jwks" true).2 = false ∧
    (fetch_jwks envMonkeys stWithK1 "https://idp.example/jwks" true).1.cache.lookup
      "idp.example/jwks" = some jwksMonkeys ∧
    (fetch_jwks envMonkeys stWithK1 "https://idp.example/jwks" true).1.timestamps.lookup
      "idp.example/jwks" = some 500 ∧
    stWithK1.cache.lookup "idp.example/jwks" = some jwksK1 ∧
    stWithK1.timestamps.lookup "idp.example/jwks" = some 100 ∧
    jwksMonkeys ≠ jwksK1 :=
  ⟨rfl, rfl, rfl, rfl, rfl, by simp [jwksMonkeys, jwksK1]⟩

/-- The record stored for `kid` in the cached document of one endpoint. -/
def cachedKeyAt (st : CacheState) (url : String) (kid : String) : Option JVal :=
  match st.cache.lookup (get_cache_key url) with
  | some jwks => findKid jwks kid
  | none => none

/-- C10: with the primary URL configured before the secondary, a kid held in
the primary's cached KeySet resolves to the primary's record on the cached
lookup (regardless of what the secondary holds); and on the post-refresh
retry after a cache miss, a kid published at the primary source resolves to
the record freshly fetched from the primary (again regardless of the
secondary). -/
theorem get_key_prefers_primary (env : FetchEnv) (st : CacheState)
    (u1 u2 kid : String) (k1 j1 : JVal) :
    (cachedKeyAt st u1 kid = some k1 →
      (get_key env st [u1, u2] kid).1 = some k1) ∧
    (lookupCached st [u1, u2] kid = none →
      env.net u1 = .body j1 → fetchBodyOk j1 = true →
      ∀ k, findKid j1 kid = some k → (get_key env st [u1, u2] kid).1 = some k) := by
  constructor
  · intro h
    unfold cachedKeyAt at h
    cases hlk : st.cache.lookup (get_cache_key u1) with
    | none => simp [hlk] at h
    | some jwks =>
      simp only [hlk] at h
      have hcl : lookupCached st [u1, u2] kid = some k1 := by
        simp only [lookupCached, hlk, h]
      simp only [get_key, hcl]
  · intro hmiss hnet hok k hfind
    simp only [fetchBodyOk, Bool.and_eq_true] at hok
    obtain ⟨hok1, hok2⟩ := hok
    have hyes : pyContainsKeys j1 = .yes := by
      cases hpc : pyContainsKeys j1 <;> rw [hpc] at hok1 <;> first | rfl | cases hok1
    have hfetch : fetch_jwks env st u1 true =
        ({ cache := updateAssoc st.cache (get_cache_key u1) j1,
           timestamps := updateAssoc st.timestamps (get_cache_key u1) env.now }, true) := by
      rw [(fetch_jwks_body_cases env st u1 j1 hnet).2 hyes, hok2]
    simp [get_key, hmiss, refreshRetry, hfetch, lookup_updateAssoc_self, hfind]

/-- The primary endpoint's key record in the C10 witness scenario. -/
def recPrimary : JVal := .jobj [("kid", .jstr "k"), ("src", .jstr "primary")]

/-- The secondary endpoint's key record in the C10 witness scenario. -/
def recSecondary : JVal := .jobj [("kid", .jstr "k"), ("src", .jstr "secondary")]

/-- The primary endpoint's JWKS document in the C10 witness scenario. -/
def jwksPrimary : JVal := .jobj [("keys", .jarr [recPrimary])]

/-- The secondary endpoint's JWKS document in the C10 witness scenario. -/
def jwksSecondary : JVal := .jobj [("keys", .jarr [recSecondary])]

/-- A cache holding the same kid at both configured endpoints. -/
def stTwoEndpoints : CacheState :=
  ⟨[("a.example/jwks", jwksPrimary), ("b.example/jwks", jwksSecondary)],
   [("a.example/jwks", 100), ("b.example/jwks", 100)]⟩

/-- An environment publishing the same kid at both sources. -/
def envBothSources : FetchEnv :=
  ⟨fun url => if url = "https://a.example/jwks" then .body jwksPrimary
    else .body jwksSecondary, 500, 900⟩

/-- An environment whose fetches always fail. -/
def envAllNetErr : FetchEnv := ⟨fun _ => .netErr, 500, 900⟩

/-- An empty cache state. -/
def stEmptyCache : CacheState := ⟨[], []⟩

/-- C10 witness: with the same kid at both endpoints, the cached lookup
returns the primary's record (tagged `src = primary`), and after a miss the
retry returns the record freshly fetched from the primary. -/
theorem get_key_prefers_primary_witness :
    (get_key envAllNetErr stTwoEndpoints
      ["https://a.example/jwks", "https://b.example/jwks"] "k").1 = some recPrimary ∧
    (get_key envBothSources stEmptyCache
      ["https://a.example/jwks", "https://b.example/jwks"] "k").1 = some recPrimary := by
  constructor
  · exact (get_key_prefers_primary envAllNetErr stTwoEndpoints
      "https://a.example/jwks" "https://b.example/jwks" "k" recPrimary jwksPrimary).1 rfl
  · exact (get_key_prefers_primary envBothSources stEmptyCache
      "https://a.example/jwks" "https://b.example/jwks" "k" recPrimary jwksPrimary).2
      rfl rfl rfl recPrimary rfl

/-- The network's view of `url` contains no key with identifier `kid`:
either the fetch fails or the returned document lacks a matching key. -/
def noKidAtSource (env : FetchEnv) (url : String) (kid : String) : Prop :=
  match env.net url with
  | .body j => findKid j kid = none
  | _ => True

/-- When no source at all carries `kid`, the miss path refreshes each URL
once, finds nothing, and returns `none` with the full URL list fetched. -/
theorem refreshRetry_all_absent (env : FetchEnv) (urls : List String) (kid : String) :
    ∀ st : CacheState, (∀ url ∈ urls, noKidAtSource env url kid) →
      (refreshRetry env st urls kid).1 = none ∧
      (refreshRetry env st urls kid).2.2 = urls := by
  induction urls with
  | nil => intro st _; exact ⟨rfl, rfl⟩
  | cons u rest ih =>
    intro st h
    have hu : noKidAtSource env u kid := h u (List.mem_cons_self u rest)
    have hrest : ∀ url ∈ rest, noKidAtSource env url kid :=
      fun url hm => h url (List.mem_cons_of_mem u hm)
    unfold noKidAtSource at hu
    cases hnet : env.net u with
    | netErr =>
      have hfetch : fetch_jwks env st u true = (st, false) := by
        simp [fetch_jwks, hnet]
      simp [refreshRetry, hfetch, ih st hrest]
    | jsonErr =>
      have hfetch : fetch_jwks env st u true = (st, false) := by
        simp [fetch_jwks, hnet]
      simp [refreshRetry, hfetch, ih st hrest]
    | body j =>
      rw [hnet] at hu
      cases hc : pyContainsKeys j with
      | no =>
        have hfetch := (fetch_jwks_body_cases env st u j hnet).1 (by simp [hc])
        simp [refreshRetry, hfetch, ih st hrest]
      | raises =>
        have hfetch := (fetch_jwks_body_cases env st u j hnet).1 (by simp [hc])
        simp [refreshRetry, hfetch, ih st hrest]
      | yes =>
        have hfetch := (fetch_jwks_body_cases env st u j hnet).2 hc
        cases hl : jwksLogOk j with
        | true =>
          rw [hl] at hfetch
          simp [refreshRetry, hfetch, lookup_updateAssoc_self, hu, ih _ hrest]
        | false =>
          rw [hl] at hfetch
          simp [refreshRetry, hfetch, ih _ hrest]

/-- When some source publishes `kid` (a successful fetch whose document
carries the kid), the miss path finds a record within the same pass. -/
theorem refreshRetry_finds_published (env : FetchEnv) (urls : List String) (kid : String) :
    ∀ st : CacheState,
      (∃ url ∈ urls, ∃ j, env.net url = .body j ∧ fetchBodyOk j = true ∧
        (findKid j kid).isSome = true) →
      ((refreshRetry env st urls kid).1).isSome = true := by
  induction urls with
  | nil =>
    intro st h
    rcases h with ⟨url, hm, _⟩
    cases hm
  | cons u rest ih =>
    intro st h
    rcases h with ⟨url, hm, j, hnet, hok, hfind⟩
    rcases List.mem_cons.mp hm with rfl | hmem
    · simp only [fetchBodyOk, Bool.and_eq_true] at hok
      obtain ⟨hok1, hok2⟩ := hok
      have hyes : pyContainsKeys j = .yes := by
        cases hpc : pyContainsKeys j <;> rw [hpc] at hok1 <;> first | rfl | cases hok1
      have hfetch : fetch_jwks env st url true =
          ({ cache := updateAssoc st.cache (get_cache_key url) j,
             timestamps := updateAssoc st.timestamps (get_cache_key url) env.now },
           true) := by
        rw [(fetch_jwks_body_cases env st url j hnet).2 hyes, hok2]
      cases hf : findKid j kid with
      | none => rw [hf] at hfind; simp at hfind
      | some k => simp [refreshRetry, hfetch, lookup_updateAssoc_self, hf]
    · have hrest : ∃ url ∈ rest, ∃ j, env.net url = .body j ∧ fetchBodyOk j = true ∧
          (findKid j kid).isSome = true := ⟨url, hmem, j, hnet, hok, hfind⟩
      cases hnetu : env.net u with
      | netErr =>
        have hfetch : fetch_jwks env st u true = (st, false) := by
          simp [fetch_jwks, hnetu]
        simp [refreshRetry, hfetch, ih st hrest]
      | jsonErr =>
        have hfetch : fetch_jwks env st u true = (st, false) := by
          simp [fetch_jwks, hnetu]
        simp [refreshRetry, hfetch, ih st hrest]
      | body j0 =>
        cases hc0 : pyContainsKeys j0 with
        | no =>
          have hfetch := (fetch_jwks_body_cases env st u j0 hnetu).1 (by simp [hc0])
          simp [refreshRetry, hfetch, ih st hrest]
        | raises =>
          have hfetch := (fetch_jwks_body_cases env st u j0 hnetu).1 (by simp [hc0])
          simp [refreshRetry, hfetch, ih st hrest]
        | yes =>
          have hfetch := (fetch_jwks_body_cases env st u j0 hnetu).2 hc0
          cases hl0 : jwksLogOk j0 with
          | true =>
            rw [hl0] at hfetch
            cases hf0 : findKid j0 kid with
            | none => simp [refreshRetry, hfetch, lookup_updateAssoc_self, hf0, ih _ hrest]
            | some k0 => simp [refreshRetry, hfetch, lookup_updateAssoc_self, hf0]
          | false =>
            rw [hl0] at hfetch
            simp [refreshRetry, hfetch, ih _ hrest]

/-- C3: on a cache miss, `get_key` performs a synchronous forced refresh of
the configured endpoints and retries the lookup exactly once: for a kid
present at no source it deterministically returns `none` with every endpoint
force-refreshed exactly once (the fetched-URL trace is the URL list itself,
a single pass, no further retries); and a kid newly published at some source
is found by the retry within the same call. -/
theorem get_key_forced_refresh_single_retry (env : FetchEnv) (st : CacheState)
    (urls : List String) (kid : String)
    (hmiss : lookupCached st urls kid = none) :
    ((∀ url ∈ urls, noKidAtSource env url kid) →
      (get_key env st urls kid).1 = none ∧ (get_key env st urls kid).2.2 = urls) ∧
    ((∃ url ∈ urls, ∃ j, env.net url = .body j ∧ fetchBodyOk j = true ∧
        (findKid j kid).isSome = true) →
      ((get_key env st urls kid).1).isSome = true) := by
  constructor
  · intro h
    have hr := refreshRetry_all_absent env urls kid st h
    simpa [get_key, hmiss] using hr
  · intro h
    have hr := refreshRetry_finds_published env urls kid st h
    simpa [get_key, hmiss] using hr

/-- C3 witness: with both sources answering an empty key collection, a
lookup for `kX` returns `none` after refreshing both URLs once; with the kid
published at the primary source, the very same call finds it. -/
theorem get_key_forced_refresh_single_retry_witness :
    ((get_key envEmptyKeys stEmptyCache
        ["https://a.example/jwks", "https://b.example/jwks"] "kX").1 = none ∧
      (get_key envEmptyKeys stEmptyCache
        ["https://a.example/jwks", "https://b.example/jwks"] "kX").2.2 =
        ["https://a.example/jwks", "https://b.example/jwks"]) ∧
    ((get_key envBothSources stEmptyCache
        ["https://a.example/jwks", "https://b.example/jwks"] "k").1).isSome = true := by
  constructor
  · exact (get_key_forced_refresh_single_retry envEmptyKeys stEmptyCache
      ["https://a.example/jwks", "https://b.example/jwks"] "kX" rfl).1
      (by intro u hu; exact rfl)
  · exact (get_key_forced_refresh_single_retry envBothSources stEmptyCache
      ["https://a.example/jwks", "https://b.example/jwks"] "k" rfl).2
      ⟨"https://a.example/jwks", List.mem_cons_self _ _, jwksPrimary, rfl, rfl, rfl⟩

/-- Splitting a whitespace-free word followed by a space: the accumulated
word is emitted and the split continues after the space. -/
theorem splitWsChars_word_space (rest : List Char) :
    ∀ (w acc : List Char), (∀ c ∈ w, c.isWhitespace = false) →
      splitWsChars (w ++ ' ' :: rest) acc =
        if (acc.reverse ++ w).isEmpty then splitWsChars rest []
        else (acc.reverse ++ w) :: splitWsChars rest [] := by
  intro w
  induction w with
  | nil =>
    intro acc _
    have hsp : (' ' : Char).isWhitespace = true := by decide
    by_cases ha : acc = []
    · subst ha
      simp [splitWsChars, hsp]
    · have h1 : acc.isEmpty = false := by simp [List.isEmpty_iff, ha]
      have h2 : (acc.reverse ++ ([] : List Char)).isEmpty = false := by
        simp [List.isEmpty_iff, ha]
      simp [splitWsChars, hsp, h1, h2, ha]
  | cons c w' ih =>
    intro acc hw
    have hc : c.isWhitespace = false := hw c (List.mem_cons_self c w')
    have hw' : ∀ x ∈ w', x.isWhitespace = false :=
      fun x hx => hw x (List.mem_cons_of_mem c hx)
    have hstep : splitWsChars ((c :: w') ++ ' ' :: rest) acc =
        splitWsChars (w' ++ ' ' :: rest) (c :: acc) := by
      simp [splitWsChars, hc]
    rw [hstep, ih (c :: acc) hw']
    have hacc : (c :: acc).reverse ++ w' = acc.reverse ++ (c :: w') := by simp
    rw [hacc]

/-- Splitting a trailing whitespace-free word: the accumulated word is the
last fragment (dropped when empty). -/
theorem splitWsChars_final :
    ∀ (w acc : List Char), (∀ c ∈ w, c.isWhitespace = false) →
      splitWsChars w acc =
        if (acc.reverse ++ w).isEmpty then [] else [acc.reverse ++ w] := by
  intro w
  induction w with
  | nil =>
    intro acc _
    by_cases ha : acc = []
    · subst ha; simp [splitWsChars]
    · have h1 : acc.isEmpty = false := by simp [List.isEmpty_iff, ha]
      have h2 : (acc.reverse ++ ([] : List Char)).isEmpty = false := by
        simp [List.isEmpty_iff, ha]
      simp [splitWsChars, h1, h2, ha]
  | cons c w' ih =>
    intro acc hw
    have hc : c.isWhitespace = false := hw c (List.mem_cons_self c w')
    have hw' : ∀ x ∈ w', x.isWhitespace = false :=
      fun x hx => hw x (List.mem_cons_of_mem c hx)
    have hstep : splitWsChars (c :: w') acc = splitWsChars w' (c :: acc) := by
      simp [splitWsChars, hc]
    rw [hstep, ih (c :: acc) hw']
    have hacc : (c :: acc).reverse ++ w' = acc.reverse ++ (c :: w') := by simp
    rw [hacc]

/-- Splitting the space-joined form of nonempty whitespace-free words
recovers exactly those words. -/
theorem splitWsChars_spaceJoined (ws : List String)
    (h : ∀ w ∈ ws, w ≠ "" ∧ ∀ c ∈ w.data, c.isWhitespace = false) :
    splitWsChars (spaceJoined ws).data [] = ws.map String.data := by
  induction ws with
  | nil => rfl
  | cons w rest ih =>
    have hw := h w (List.mem_cons_self w rest)
    have hdne : w.data ≠ [] := by
      intro hd
      exact hw.1 (String.ext hd)
    have hrest : ∀ x ∈ rest, x ≠ "" ∧ ∀ c ∈ x.data, c.isWhitespace = false :=
      fun x hx => h x (List.mem_cons_of_mem w hx)
    cases rest with
    | nil =>
      have hfin := splitWsChars_final w.data [] hw.2
      simp only [spaceJoined]
      rw [hfin]
      simp [List.isEmpty_iff, hdne]
    | cons x rest' =>
      have hdata : (w ++ " " ++ spaceJoined (x :: rest')).data =
          w.data ++ ' ' :: (spaceJoined (x :: rest')).data := by
        simp
      simp only [spaceJoined]
      rw [hdata, splitWsChars_word_space _ w.data [] hw.2]
      have hne : (([] : List Char).reverse ++ w.data).isEmpty = false := by
        simp [List.isEmpty_iff, hdne]
      rw [if_neg (by simp [List.isEmpty_iff, hdne])]
      simp only [List.reverse_nil, List.nil_append]
      rw [ih hrest]
      rfl

/-- `str.split()` of the space-joined form recovers the word list. -/
theorem pyStrSplitWs_spaceJoined (ws : List String)
    (h : ∀ w ∈ ws, w ≠ "" ∧ ∀ c ∈ w.data, c.isWhitespace = false) :
    pyStrSplitWs (spaceJoined ws) = ws := by
  unfold pyStrSplitWs
  rw [splitWsChars_spaceJoined ws h, List.map_map]
  have hcomp : String.mk ∘ String.data = id := rfl
  rw [hcomp, List.map_id]

/-- `str.strip()` of a whitespace-free string is the string itself. -/
theorem pyStrip_no_ws (s : String) (h : ∀ c ∈ s.data, c.isWhitespace = false) :
    pyStrip s = s := by
  unfold pyStrip
  have h1 : s.data.dropWhile Char.isWhitespace = s.data := by
    cases hd : s.data with
    | nil => rfl
    | cons c t =>
      have hc : c.isWhitespace = false := h c (hd ▸ List.mem_cons_self c t)
      simp [List.dropWhile, hc]
  rw [h1]
  have h2 : s.data.reverse.dropWhile Char.isWhitespace = s.data.reverse := by
    cases hd : s.data.reverse with
    | nil => rfl
    | cons c t =>
      have hc : c ∈ s.data := by
        rw [← List.mem_reverse, hd]
        exact List.mem_cons_self c t
      simp [List.dropWhile, h c hc]
  rw [h2, List.reverse_reverse]

/-- C6: scope normalization — a string scope is split on whitespace with
empty fragments dropped, a sequence scope is used as-is, any other or absent
scope value yields the empty sequence (and the authz copy `_extract_scopes`
agrees with the validator's `extract_scope` everywhere); consequently a
space-delimited string of scope words and the sequence of those same words
normalize to the identical sequence. -/
theorem extract_scope_normalization (claims claims' other : JVal) (ws : List String) :
    (∀ c, extract_scopes c = extract_scope c) ∧
    (claims.get "scope" = some (.jstr (spaceJoined ws)) →
      (∀ w ∈ ws, w ≠ "" ∧ ∀ c ∈ w.data, c.isWhitespace = false) →
      extract_scope claims = ws.map JVal.jstr) ∧
    (claims'.get "scope" = some (.jarr (ws.map JVal.jstr)) →
      extract_scope claims' = ws.map JVal.jstr) ∧
    ((∀ s, other.get "scope" ≠ some (.jstr s)) →
      (∀ xs, other.get "scope" ≠ some (.jarr xs)) →
      extract_scope other = []) ∧
    (claims.get "scope" = some (.jstr (spaceJoined ws)) →
      claims'.get "scope" = some (.jarr (ws.map JVal.jstr)) →
      (∀ w ∈ ws, w ≠ "" ∧ ∀ c ∈ w.data, c.isWhitespace = false) →
      extract_scope claims = extract_scope claims') := by
  have hbranchS : ∀ cl : JVal, cl.get "scope" = some (.jstr (spaceJoined ws)) →
      (∀ w ∈ ws, w ≠ "" ∧ ∀ c ∈ w.data, c.isWhitespace = false) →
      extract_scope cl = ws.map JVal.jstr := by
    intro cl hs hw
    simp only [extract_scope, hs]
    rw [pyStrSplitWs_spaceJoined ws hw]
    have hmap : ws.map pyStrip = ws := by
      rw [List.map_congr_left (fun w hmem => pyStrip_no_ws w (hw w hmem).2)]
      exact List.map_id ws
    rw [hmap]
    have hfil : ws.filter (fun t => t ≠ "") = ws := by
      rw [List.filter_eq_self]
      intro a ha
      simpa using (hw a ha).1
    rw [hfil]
  have hbranchA : ∀ cl : JVal, cl.get "scope" = some (.jarr (ws.map JVal.jstr)) →
      extract_scope cl = ws.map JVal.jstr := by
    intro cl hs
    simp [extract_scope, hs]
  refine ⟨fun c => rfl, hbranchS claims, hbranchA claims', ?_,
    fun h h' hw => (hbranchS claims h hw).trans (hbranchA claims' h').symm⟩
  intro h1 h2
  unfold extract_scope
  cases hscope : other.get "scope" with
  | none => rfl
  | some v =>
    cases v with
    | jstr s => exact absurd hscope (h1 s)
    | jarr xs => exact absurd hscope (h2 xs)
    | jnull => rfl
    | jbool b => rfl
    | jnum n => rfl
    | jobj fs => rfl

/-- C6 witness: the wire forms `"Read Write"` and `["Read", "Write"]`
normalize to the identical scope sequence. -/
theorem extract_scope_normalization_witness :
    extract_scope (JVal.jobj [("scope", JVal.jstr "Read Write")]) =
      [JVal.jstr "Read", JVal.jstr "Write"] ∧
    extract_scope (JVal.jobj [("scope", JVal.jarr [JVal.jstr "Read", JVal.jstr "Write"])]) =
      [JVal.jstr "Read", JVal.jstr "Write"] ∧
    extract_scope (JVal.jobj [("scope", JVal.jstr "Read Write")]) =
      extract_scope (JVal.jobj [("scope", JVal.jarr [JVal.jstr "Read", JVal.jstr "Write"])]) := by
  have h := extract_scope_normalization (JVal.jobj [("scope", JVal.jstr "Read Write")])
    (JVal.jobj [("scope", JVal.jarr [JVal.jstr "Read", JVal.jstr "Write"])])
    JVal.jnull ["Read", "Write"]
  exact ⟨h.2.1 rfl (by decide), h.2.2.1 rfl, h.2.2.2.2 rfl rfl (by decide)⟩

/-- A decoded token header carrying kid `k1` and alg RS256. -/
def hdrK1 : JVal := .jobj [("kid", .jstr "k1"), ("alg", .jstr "RS256")]

/-- The JWK record the cache returns for `k1`. -/
def jwkK1 : JVal :=
  .jobj [("kid", .jstr "k1"), ("kty", .jstr "RSA"), ("n", .jstr "AQAB"), ("e", .jstr "AQAB")]

/-- A pipeline environment with constant oracles: the header segment decodes
to `hdr`, the cache lookup returns `key`, JWK→PEM returns `pem`, the
structural payload decode returns `pay`, the signature check returns `sig`. -/
def constEnv (hdr : JVal) (key : Option JVal) (pem : Except String String)
    (pay : Except String JVal) (sig : Bool) : TokenEnv :=
  ⟨fun _ => .ok hdr, fun _ => pem, fun _ => key, fun _ => pay, fun _ _ => sig⟩

/-- The configuration of the spec's scenarios: audience `TSIAM`, one allowed
issuer, 120 s of permitted clock skew, clock reading 2000. -/
def cfgEx : ValidatorConfig := ⟨2000, "TSIAM", ["https://idp.example/issuer"], 120⟩

/-- A payload valid in every respect except that its expiry lies 121 s in
the past (beyond the 120 s skew). -/
def payloadExpPast : JVal := .jobj
  [("sub", .jstr "S"), ("aud", .jstr "TSIAM"), ("iss", .jstr "https://idp.example/issuer"),
   ("iat", .jnum 2000), ("nbf", .jnum 2000), ("exp", .jnum 1879), ("scope", .jstr "Read Write")]

/-- The pipeline environment delivering `payloadExpPast` with a valid
signature. -/
def envExpPast : TokenEnv := constEnv hdrK1 (some jwkK1) (.ok "PEM") (.ok payloadExpPast) true

/-- C2 counterexample: a token whose expiry drift exceeds the configured
skew on the past side is rejected by the library's one-sided check first,
with the message "Token has expired" — the violation is not reported by the
distinct expiration-drift message the claim requires. -/
theorem past_expiry_drift_counterexample :
    validate_jwt envExpPast cfgEx "h.p.s" =
      .err "Token validation failed: Token has expired" ∧
    ¬ ("Expiration time drift".data <:+:
        "Token validation failed: Token has expired".data) :=
  ⟨rfl, by decide⟩

/-- The symmetric drift test `abs(current_time - claims[k]) >
settings.max_clock_skew_sec` applied by `_validate_claims` to each of the
temporal claims (jwt_validator.py:152-167); false when the claim is absent. -/
def skewDriftBad (cfg : ValidatorConfig) (claims : JVal) (k : String) : Bool :=
  match claims.get k with
  | some (.jnum t) => decide (|cfg.now - t| > cfg.maxClockSkewSec)
  | _ => false

/-- C2 amended: the validator's own claim check tests each of `iat`, `exp`
and `nbf` symmetrically as |now − claim| ≤ skew, rejecting past and future
drift alike with a distinct message per claim; but it runs only after the
library decode's conventional one-sided checks with zero leeway, so any
token whose expiry lies at or before `now` — by any amount, beyond the skew
or within it — whose issued-at is not in the future (a future `iat` draws
the library's "The token is not yet valid (iat)" first) is rejected earlier
with "Token has expired"; the "Expiration time drift" message can only
arise for an expiry in the future. -/
theorem clock_skew_checks (cfg : ValidatorConfig) (claims : JVal) (t : Int) :
    (claims.get "iat" = some (.jnum t) → |cfg.now - t| > cfg.maxClockSkewSec →
      validate_claims cfg claims =
        some s!"Issued at time drift exceeds {cfg.maxClockSkewSec} seconds") ∧
    (skewDriftBad cfg claims "iat" = false →
      claims.get "exp" = some (.jnum t) → |cfg.now - t| > cfg.maxClockSkewSec →
      validate_claims cfg claims =
        some s!"Expiration time drift exceeds {cfg.maxClockSkewSec} seconds") ∧
    (skewDriftBad cfg claims "iat" = false → skewDriftBad cfg claims "exp" = false →
      claims.get "nbf" = some (.jnum t) → |cfg.now - t| > cfg.maxClockSkewSec →
      validate_claims cfg claims =
        some s!"Not before time drift exceeds {cfg.maxClockSkewSec} seconds") ∧
    (∀ (hdr key pay : JVal) (pem : String) (texp : Int),
      pyFalsy ((hdr.get "kid")) = false →
      pyFalsy (some key) = false →
      tempClaimBadFmt pay "iat" = false → pyIatFuture pay cfg.now = false →
      tempClaimBadFmt pay "nbf" = false → pyNbfFuture pay cfg.now = false →
      pay.get "exp" = some (.jnum texp) → texp ≤ cfg.now →
      validate_jwt (constEnv hdr (some key) (.ok pem) (.ok pay) true) cfg "h.p.s" =
        .err "Token validation failed: Token has expired") := by
  refine ⟨?_, ?_, ?_, ?_⟩
  · intro hiat hgt
    simp [validate_claims, hiat, hgt]
  · intro h1 hexp hgt
    simp only [skewDriftBad] at h1
    simp [validate_claims, h1, hexp, hgt]
  · intro h1 h2 hnbf hgt
    simp only [skewDriftBad] at h1 h2
    simp [validate_claims, h1, h2, hnbf, hgt]
  · intro hdr key pay pem texp hkid hkey hiat hiatf hnbf hnbff hexp hle
    have hpast : pyExpPast pay cfg.now = true := by
      simp [pyExpPast, hexp, hle]
    have hexpfmt : tempClaimBadFmt pay "exp" = false := by
      simp [tempClaimBadFmt, hexp, asPyInt]
    have hparse : parse_jwt_header (constEnv hdr (some key) (.ok pem) (.ok pay) true)
        "h.p.s" = .ok hdr := rfl
    simp only [validate_jwt]
    rw [hparse]
    simp [constEnv, hkid, hkey, pyJwtDecode, hiat, hiatf, hnbf, hnbff, hpast, hexpfmt]

/-- A payload valid in every respect except that its expiry lies 1000 s in
the future (beyond the 120 s skew). -/
def payloadExpFuture : JVal := .jobj
  [("sub", .jstr "S"), ("aud", .jstr "TSIAM"), ("iss", .jstr "https://idp.example/issuer"),
   ("iat", .jnum 2000), ("nbf", .jnum 2000), ("exp", .jnum 3000)]

/-- C2 amended witness: a future expiry beyond the skew draws the distinct
expiration-drift message from the claims check, while a past expiry is
rejected at the decode stage as "Token has expired". -/
theorem clock_skew_checks_witness :
    validate_claims cfgEx payloadExpFuture =
      some "Expiration time drift exceeds 120 seconds" ∧
    validate_jwt (constEnv hdrK1 (some jwkK1) (.ok "PEM") (.ok payloadExpPast) true)
      cfgEx "h.p.s" = .err "Token validation failed: Token has expired" :=
  ⟨(clock_skew_checks cfgEx payloadExpFuture 3000).2.1 rfl rfl (by decide),
   (clock_skew_checks cfgEx payloadExpPast 0).2.2.2 hdrK1 jwkK1 payloadExpPast
     "PEM" 1879 rfl rfl rfl rfl rfl rfl rfl (by decide)⟩

/-- A payload valid in every respect except that its audience is `OTHER`. -/
def payloadAudOther : JVal := .jobj
  [("sub", .jstr "S"), ("aud", .jstr "OTHER"), ("iss", .jstr "https://idp.example/issuer"),
   ("iat", .jnum 2000), ("nbf", .jnum 2000), ("exp", .jnum 2060)]

/-- The pipeline environment delivering `payloadAudOther` with a valid
signature. -/
def envAudOther : TokenEnv := constEnv hdrK1 (some jwkK1) (.ok "PEM") (.ok payloadAudOther) true

/-- C8 counterexample: a token with audience `OTHER` against expected
`TSIAM` is rejected at the library decode stage with the bare message
"Invalid audience" — naming neither the offending value nor the expected
one, against the claim's requirement that each such message include both. -/
theorem aud_mismatch_counterexample :
    validate_jwt envAudOther cfgEx "h.p.s" =
      .err "Token validation failed: Invalid audience" ∧
    ¬ ("TSIAM".data <:+: "Token validation failed: Invalid audience".data) ∧
    ¬ ("OTHER".data <:+: "Token validation failed: Invalid audience".data) :=
  ⟨rfl, by decide, by decide⟩

/-- A fully accepted claim set has passed the exact audience-equality check
and the issuer allow-list membership check of `_validate_claims`. -/
theorem validate_claims_none_aud_iss (cfg : ValidatorConfig) (claims : JVal)
    (h : validate_claims cfg claims = none) :
    pyEqStr ((claims.get "aud").getD .jnull) cfg.copAudience = true ∧
    pyInStrList ((claims.get "iss").getD .jnull) cfg.allowedIssuers = true := by
  simp only [validate_claims] at h
  split_ifs at h with h1 h2 h3 h4 h5 h6 h7 h8
  simp at h7 h8
  exact ⟨h7, h8⟩

/-- C8 amended: a verification can only succeed when the audience claim
equals the configured expected audience exactly (not merely containing it)
and the issuer claim is a member of the allow-list; an audience mismatch
that reaches the validator's own check (having passed the library's
membership-style audience test, e.g. a list containing the expected
audience) is reported with a message citing both the offending and expected
values, while an issuer mismatch reaching that check is reported citing the
offending value only (the allow-list is not echoed); mismatches caught at
the library decode stage carry the bare "Invalid audience"/"Invalid issuer"
messages with no values (see the counterexample). -/
theorem audience_issuer_checks (cfg : ValidatorConfig) (claims : JVal) :
    (∀ (env : TokenEnv) (token : String) (c : JVal),
      validate_jwt env cfg token = .ok c →
      pyEqStr ((c.get "aud").getD .jnull) cfg.copAudience = true ∧
      pyInStrList ((c.get "iss").getD .jnull) cfg.allowedIssuers = true) ∧
    (skewDriftBad cfg claims "iat" = false → skewDriftBad cfg claims "exp" = false →
      skewDriftBad cfg claims "nbf" = false →
      claims.hasField "sub" = true → claims.hasField "aud" = true →
      claims.hasField "iss" = true →
      ∀ v, claims.get "aud" = some v → pyEqStr v cfg.copAudience = false →
      validate_claims cfg claims =
        some s!"Invalid audience: expected '{cfg.copAudience}', got '{jShow v}'") ∧
    (skewDriftBad cfg claims "iat" = false → skewDriftBad cfg claims "exp" = false →
      skewDriftBad cfg claims "nbf" = false →
      claims.hasField "sub" = true → claims.hasField "aud" = true →
      claims.hasField "iss" = true →
      pyEqStr ((claims.get "aud").getD .jnull) cfg.copAudience = true →
      ∀ v, claims.get "iss" = some v → pyInStrList v cfg.allowedIssuers = false →
      validate_claims cfg claims =
        some s!"Invalid issuer: '{jShow v}' not in allowed issuers") := by
  refine ⟨?_, ?_, ?_⟩
  · intro env token c h
    simp only [validate_jwt] at h
    repeat' split at h
    all_goals simp at h
    rename_i claims2 hvc
    rcases h with ⟨rfl⟩
    exact validate_claims_none_aud_iss cfg c hvc
  · intro h1 h2 h3 hsub haud hiss v hv hne
    simp only [skewDriftBad] at h1 h2 h3
    simp [validate_claims, h1, h2, h3, hsub, haud, hiss, hv, hne]
  · intro h1 h2 h3 hsub haud hiss heq v hv hne
    simp only [skewDriftBad] at h1 h2 h3
    simp [validate_claims, h1, h2, h3, hsub, haud, hiss, heq, hv, hne]

/-- A fully valid payload (audience exactly `TSIAM`, allowed issuer, all
temporal claims within skew). -/
def payloadGood : JVal := .jobj
  [("sub", .jstr "S"), ("aud", .jstr "TSIAM"), ("iss", .jstr "https://idp.example/issuer"),
   ("iat", .jnum 2000), ("nbf", .jnum 2000), ("exp", .jnum 2060), ("scope", .jstr "Read Write")]

/-- A payload whose audience is the list `["TSIAM"]`: it contains the
expected audience (so the library's membership test passes) but is not
equal to it. -/
def payloadAudList : JVal := .jobj
  [("sub", .jstr "S"), ("aud", .jarr [.jstr "TSIAM"]), ("iss", .jstr "https://idp.example/issuer"),
   ("iat", .jnum 2000), ("nbf", .jnum 2000), ("exp", .jnum 2060)]

/-- A payload with an issuer outside the allow-list. -/
def payloadBadIss : JVal := .jobj
  [("sub", .jstr "S"), ("aud", .jstr "TSIAM"), ("iss", .jstr "https://evil.example"),
   ("iat", .jnum 2000), ("nbf", .jnum 2000), ("exp", .jnum 2060)]

/-- C8 witness: a fully accepted token has exact audience equality and
issuer membership; the list audience `["TSIAM"]` is rejected by the exact
check with both values cited; the disallowed issuer is rejected with the
offending value cited. -/
theorem audience_issuer_checks_witness :
    (pyEqStr ((payloadGood.get "aud").getD .jnull) cfgEx.copAudience = true ∧
      pyInStrList ((payloadGood.get "iss").getD .jnull) cfgEx.allowedIssuers = true) ∧
    validate_claims cfgEx payloadAudList =
      some "Invalid audience: expected 'TSIAM', got '['TSIAM']'" ∧
    validate_claims cfgEx payloadBadIss =
      some "Invalid issuer: 'https://evil.example' not in allowed issuers" := by
  refine ⟨?_, ?_, ?_⟩
  · exact (audience_issuer_checks cfgEx payloadGood).1
      (constEnv hdrK1 (some jwkK1) (.ok "PEM") (.ok payloadGood) true) "h.p.s"
      payloadGood rfl
  · have h := (audience_issuer_checks cfgEx payloadAudList).2.1 rfl rfl rfl rfl rfl rfl
      (JVal.jarr [JVal.jstr "TSIAM"]) rfl rfl
    have hshow : jShow (JVal.jarr [JVal.jstr "TSIAM"]) = "['TSIAM']" := by
      simp [jShow, jReprList, jRepr]
    rw [hshow] at h
    exact h
  · have h := (audience_issuer_checks cfgEx payloadBadIss).2.2 rfl rfl rfl rfl rfl rfl rfl
      (JVal.jstr "https://evil.example") rfl rfl
    exact h
